/-
Verification of the DairyPredict production-optimizer and forecast-cache
specification against the source code.

The embedding models:
  - utils/optimization.py : ProductionOptimizer (configuration tables,
    calculate_optimal_production, calculate_inventory_optimization,
    generate_optimization_summary overall metrics)
  - utils/forecasting.py : DairyForecaster evaluation threshold and the
    model cache state machine (train / save / load / load_all / delete).

Numbers are exact rationals.  Python round(x, n) is banker's rounding
(round half to even), modelled by roundHalfEven and pyRound below.
-/
import Mathlib

/-- Round half to even on rationals, the semantics of Python round
applied to an exact value. -/
def roundHalfEven (q : ℚ) : ℤ :=
  if q < ⌊q⌋ + 1/2 then ⌊q⌋
  else if (⌊q⌋ : ℚ) + 1/2 < q then ⌊q⌋ + 1
  else if ⌊q⌋ % 2 = 0 then ⌊q⌋ else ⌊q⌋ + 1

/-- Python round(q, n) for exact rational q: scale by 10 to the n, round
half to even, scale back. -/
def pyRound (q : ℚ) (n : ℕ) : ℚ := (roundHalfEven (q * 10 ^ n) : ℚ) / 10 ^ n

/- Configuration tables of ProductionOptimizer (optimization.py lines 10-43)
and the price table of the estimate price helper (lines 98-104).  Absent
products map to none; the getD defaults below mirror dict.get fallbacks. -/

/-- default_capacities table, optimization.py lines 10-16. -/
def default_capacities : String → Option ℚ
  | "Milk" => some 2000
  | "Butter" => some 500
  | "Cheese" => some 400
  | "Yogurt" => some 800
  | "Ghee" => some 300
  | _ => none

/-- production_costs table, optimization.py lines 19-25. -/
def production_costs : String → Option ℚ
  | "Milk" => some 15
  | "Butter" => some 300
  | "Cheese" => some 250
  | "Yogurt" => some 50
  | "Ghee" => some 400
  | _ => none

/-- storage_costs table, optimization.py lines 28-34. -/
def storage_costs : String → Option ℚ
  | "Milk" => some (1/2)
  | "Butter" => some 2
  | "Cheese" => some 3
  | "Yogurt" => some 1
  | "Ghee" => some (5/2)
  | _ => none

/-- shelf_life table, optimization.py lines 37-43. -/
def shelf_life : String → Option ℕ
  | "Milk" => some 5
  | "Butter" => some 30
  | "Cheese" => some 45
  | "Yogurt" => some 10
  | "Ghee" => some 90
  | _ => none

/-- price_estimates table inside the estimate price helper,
optimization.py lines 98-104. -/
def price_estimates : String → Option ℚ
  | "Milk" => some 25
  | "Butter" => some 450
  | "Cheese" => some 350
  | "Yogurt" => some 80
  | "Ghee" => some 600
  | _ => none

/-- estimate price helper, optimization.py lines 96-105: table lookup with
fallback 100 for unknown products. -/
def estimate_price (product : String) : ℚ := (price_estimates product).getD 100

/-- One row of the forecast table handed to the optimizer: columns product,
date, predicted_demand (the shape produced by export_forecasts and by the
pages that call the optimizer).  Dates are day numbers. -/
structure ForecastRow where
  product : String
  date : ℤ
  predicted_demand : ℚ
deriving DecidableEq, Repr

/-- One output row of calculate_optimal_production, optimization.py
lines 84-92. -/
structure PlanRow where
  date : ℤ
  forecasted_demand : ℚ
  optimal_production : ℚ
  capacity_utilization : ℚ
  production_cost : ℚ
  potential_revenue : ℚ
  profit_margin : ℚ
deriving DecidableEq, Repr

/-- The capacity constraint chosen at optimization.py line 51:
Python custom_capacity or default means a None or zero override falls back
to the configured default, itself falling back to 1000. -/
def effectiveCapacity (custom_capacity : Option ℚ) (product : String) : ℚ :=
  match custom_capacity with
  | some c => if c = 0 then (default_capacities product).getD 1000 else c
  | none => (default_capacities product).getD 1000

/-- Per-row body of the loop at optimization.py lines 65-92.  All derived
quantities are computed from the unrounded production quantity; rounding
happens only when the output row is assembled. -/
def mkPlanRow (product : String) (safety_stock : ℚ) (capacity : ℚ)
    (date : ℤ) (forecast_demand : ℚ) : PlanRow :=
  let adjusted_demand := forecast_demand * (1 + safety_stock)
  let production_qty := min adjusted_demand capacity
  let utilization := production_qty / capacity * 100
  let prod_cost := production_qty * (production_costs product).getD 0
  let avg_price := estimate_price product
  let potential_revenue := production_qty * avg_price
  { date := date
    forecasted_demand := forecast_demand
    optimal_production := pyRound production_qty 0
    capacity_utilization := pyRound utilization 1
    production_cost := pyRound prod_cost 2
    potential_revenue := pyRound potential_revenue 2
    profit_margin :=
      if 0 < potential_revenue then
        pyRound ((potential_revenue - prod_cost) / potential_revenue * 100) 1
      else 0 }

/-- Insertion step for the sort by date (pandas sort_values at
optimization.py line 60). -/
def insertByDate (r : ForecastRow) : List ForecastRow → List ForecastRow
  | [] => [r]
  | x :: xs => if r.date ≤ x.date then r :: x :: xs else x :: insertByDate r xs

/-- Sort the product's rows by date, optimization.py line 60. -/
def sortByDate (l : List ForecastRow) : List ForecastRow :=
  l.foldr insertByDate []

/-- calculate_optimal_production, optimization.py lines 45-94: none models
the Python None result for an empty input or an empty product filter. -/
def calculate_optimal_production (forecasts : List ForecastRow)
    (product : String) (safety_stock : ℚ) (custom_capacity : Option ℚ) :
    Option (List PlanRow) :=
  if forecasts.isEmpty then none
  else
    let capacity := effectiveCapacity custom_capacity product
    let product_forecasts := forecasts.filter (fun r => r.product == product)
    if product_forecasts.isEmpty then none
    else
      some ((sortByDate product_forecasts).map
        (fun r => mkPlanRow product safety_stock capacity r.date r.predicted_demand))

/-- One output row of calculate_inventory_optimization, optimization.py
lines 146-155. -/
structure InvRow where
  date : ℤ
  current_inventory : ℚ
  forecasted_demand : ℚ
  optimal_stock_level : ℚ
  reorder_point : ℚ
  recommended_order : ℚ
  daily_storage_cost : ℚ
  stock_status : String
deriving DecidableEq, Repr

/-- The future-demand helper, optimization.py lines 159-165: a positional
slice rows[current_index : current_index + days] of the filtered frame,
clamped at the end, summing the demand column. -/
def calculate_future_demand (rows : List ForecastRow) (current_index days : ℕ) : ℚ :=
  (((rows.drop current_index).take days).map (fun r => r.predicted_demand)).sum

/-- stock status helper, optimization.py lines 167-174. -/
def get_stock_status (current_stock reorder_point optimal_stock : ℚ) : String :=
  if current_stock < reorder_point then "Reorder Required"
  else if current_stock > optimal_stock then "Overstock"
  else "Optimal"

/-- Loop body of calculate_inventory_optimization, optimization.py
lines 123-155.  Each element of the labelled list pairs a row with its
pandas index label, which the source feeds to the positional future-demand
helper; rows is the filtered frame in positional order. -/
def invRows (rows : List ForecastRow) (shelf : ℕ) (storage : ℚ) :
    List (ℕ × ForecastRow) → ℚ → List InvRow
  | [], _ => []
  | (i, row) :: rest, stock =>
    let demand := row.predicted_demand
    let future_demand := calculate_future_demand rows i shelf
    let optimal_stock := min future_demand (demand * shelf)
    let reorder_point := demand * 2
    let order_qty := if stock < reorder_point then optimal_stock - stock else 0
    let stock2 := max 0 (stock + order_qty - demand)
    let daily_storage_cost := stock2 * storage
    { date := row.date
      current_inventory := pyRound stock2 0
      forecasted_demand := pyRound demand 0
      optimal_stock_level := pyRound optimal_stock 0
      reorder_point := pyRound reorder_point 0
      recommended_order := pyRound order_qty 0
      daily_storage_cost := pyRound daily_storage_cost 2
      stock_status := get_stock_status stock2 reorder_point optimal_stock } ::
    invRows rows shelf storage rest stock2

/-- calculate_inventory_optimization, optimization.py lines 107-157.
Filtering a frame keeps the original pandas index labels, modelled by
enumerating before filtering; iterrows then yields those labels, which the
loop passes to the positional slice helper. -/
def calculate_inventory_optimization (forecasts : List ForecastRow)
    (product : String) (current_inventory : ℚ) : Option (List InvRow) :=
  if forecasts.isEmpty then none
  else
    let labeled := forecasts.enum.filter (fun p => p.2.product == product)
    if labeled.isEmpty then none
    else
      let shelf := (shelf_life product).getD 30
      let storage := (storage_costs product).getD 1
      some (invRows (labeled.map (fun p => p.2)) shelf storage labeled current_inventory)

/-- Totals accumulated by generate_optimization_summary, optimization.py
lines 220-240: per product, calculate_optimal_production with the default
safety stock and no capacity override; products with an absent or empty
plan are skipped; the per-row rounded cost and revenue columns are summed. -/
def summaryTotals (forecasts : List ForecastRow) (products : List String) : ℚ × ℚ :=
  products.foldl
    (fun acc product =>
      match calculate_optimal_production forecasts product (1/10) none with
      | some plan =>
          (acc.1 + (plan.map (fun r => r.production_cost)).sum,
           acc.2 + (plan.map (fun r => r.potential_revenue)).sum)
      | none => acc)
    (0, 0)

/-- The overall_metrics record of generate_optimization_summary,
optimization.py lines 243-247: rounded total cost, rounded total revenue,
and the guarded overall profit margin computed from the unrounded totals. -/
def overallMetrics (forecasts : List ForecastRow) (products : List String) :
    ℚ × ℚ × ℚ :=
  let totals := summaryTotals forecasts products
  (pyRound totals.1 2, pyRound totals.2 2,
    if 0 < totals.2 then pyRound ((totals.2 - totals.1) / totals.2 * 100) 1 else 0)

/-- Result of the model evaluation helper, forecasting.py lines 63-121:
either all three metrics unavailable with a note, or the metric values with
a note.  The source stores the square root of the mse field as rmse; no
claim depends on that value, and the square root is kept out of the
embedding to stay inside the rationals. -/
inductive EvalResult where
  | unavailable (note : String)
  | available (mae mse mape : ℚ) (note : String)
deriving DecidableEq, Repr

/-- The evaluation helper, forecasting.py lines 63-121, over the series of
observed quantities.  The Prophet refit and prediction are abstracted as
predictTail, mapping a training prefix and a horizon to the predictions
for the held-out points; the metric arithmetic, the 30-point split, the
guard and the 0.1 flooring follow the source. -/
def evaluateModel (predictTail : List ℚ → ℕ → List ℚ) (data : List ℚ) : EvalResult :=
  let train_size : ℤ := (data.length : ℤ) - 30
  if train_size < 60 then EvalResult.unavailable "Insufficient data for validation"
  else
    let t : ℕ := data.length - 30
    let train_data := data.take t
    let test_data := data.drop t
    let y_true := test_data.map (fun y => max y (1/10))
    let y_pred := (predictTail train_data test_data.length).map (fun y => max y (1/10))
    let pairs := y_true.zip y_pred
    let n : ℚ := test_data.length
    EvalResult.available
      ((pairs.map (fun p => |p.1 - p.2|)).sum / n)
      ((pairs.map (fun p => (p.1 - p.2) ^ 2)).sum / n)
      ((pairs.map (fun p => |p.1 - p.2| / p.1)).sum / n * 100)
      "Validation on last 30 days"

/-- Filesystem-safe transform of a product key used in the persisted entry
names, forecasting.py line 245: spaces become underscores. -/
def encodeChars (k : String) : List Char :=
  k.toList.map (fun c => if c = ' ' then '_' else c)

/-- Inverse transform applied when decoding stored entry names,
forecasting.py line 364: underscores become spaces. -/
def decodeChars (l : List Char) : List Char :=
  l.map (fun c => if c = '_' then ' ' else c)

/-- Entry-name suffix of a stored model object. -/
def modelSuffix : List Char := "_model.pkl".toList

/-- Entry-name suffix of a stored performance record. -/
def perfSuffix : List Char := "_performance.pkl".toList

/-- Entry-name suffix of a stored metadata record. -/
def metaSuffix : List Char := "_metadata.pkl".toList

/-- Name of the persisted model entry for a key, forecasting.py line 245. -/
def modelFile (k : String) : List Char := encodeChars k ++ modelSuffix

/-- Name of the persisted performance entry, forecasting.py line 246. -/
def perfFile (k : String) : List Char := encodeChars k ++ perfSuffix

/-- Name of the persisted metadata entry, forecasting.py line 247. -/
def metaFile (k : String) : List Char := encodeChars k ++ metaSuffix

/-- Worker for Python str.replace on character lists, scanning left to
right; the counter holds the number of characters of a just-matched
occurrence still to be consumed without emitting or matching. -/
def replaceSubAux (pat rep : List Char) : List Char → ℕ → List Char
  | [], _ => []
  | _ :: cs, n + 1 => replaceSubAux pat rep cs n
  | c :: cs, 0 =>
    if pat ≠ [] ∧ pat.isPrefixOf (c :: cs) then
      rep ++ replaceSubAux pat rep cs (pat.length - 1)
    else
      c :: replaceSubAux pat rep cs 0

/-- Python str.replace on character lists: replace every non-overlapping
occurrence of pat by rep, scanning left to right. -/
def replaceSub (pat rep l : List Char) : List Char := replaceSubAux pat rep l 0

/-- In-memory maps of the forecaster (key sets of the models,
model_performance and metadata dictionaries) together with the set of
persisted entry names in the models directory. -/
structure CacheState where
  models : List String
  model_performance : List String
  metadata : List String
  disk : List (List Char)
deriving DecidableEq, Repr

/-- The empty forecaster state before any model is trained or loaded. -/
def initState : CacheState := ⟨[], [], [], []⟩

/-- save_model, forecasting.py lines 242-279, with fault injection: the
model, performance and metadata entries are written in that order and
writesOk counts how many writes succeed before an exception, three or more
meaning full success.  The in-memory metadata entry is recorded only after
all three writes (line 273); an exception makes the call report failure
(line 279) with no in-memory change. -/
def saveStep (k : String) (writesOk : ℕ) (s : CacheState) : CacheState × Bool :=
  if writesOk = 0 then (s, false)
  else if writesOk = 1 then ({ s with disk := modelFile k :: s.disk }, false)
  else if writesOk = 2 then
    ({ s with disk := perfFile k :: modelFile k :: s.disk }, false)
  else
    ({ s with
        disk := metaFile k :: perfFile k :: modelFile k :: s.disk,
        metadata := k :: s.metadata }, true)

/-- train_model, forecasting.py lines 28-61: a successful fit stores the
model (line 50), evaluation always records a performance entry whatever
happens inside it (lines 63-121), then save_model runs; a failed fit is
caught and leaves the state untouched.  train_model reports success even
when the save fails. -/
def trainStep (k : String) (fitOk : Bool) (writesOk : ℕ) (s : CacheState) :
    CacheState × Bool :=
  if fitOk then
    let s1 := { s with
        models := k :: s.models,
        model_performance := k :: s.model_performance }
    ((saveStep k writesOk s1).1, true)
  else (s, false)

/-- load_model, forecasting.py lines 281-312: unless all three entries are
on disk the call returns found=false with no state change (line 289);
readOk tells whether the three deserializations succeed; on success the
three in-memory maps are populated together (lines 305-307). -/
def loadStep (k : String) (readOk : Bool) (s : CacheState) : CacheState × Bool :=
  if modelFile k ∈ s.disk ∧ perfFile k ∈ s.disk ∧ metaFile k ∈ s.disk then
    if readOk then
      ({ s with
          models := k :: s.models,
          model_performance := k :: s.model_performance,
          metadata := k :: s.metadata }, true)
    else (s, false)
  else (s, false)

/-- get_available_models, forecasting.py lines 358-366: keep the directory
entries ending in the model suffix, strip that suffix with str.replace and
turn underscores back into spaces. -/
def availableModels (disk : List (List Char)) : List String :=
  (disk.filter (fun f => modelSuffix.isSuffixOf f)).map
    (fun f => String.mk (decodeChars (replaceSub modelSuffix [] f)))

/-- load_all_models, forecasting.py lines 314-331: decode every model entry
name and load each key, failures isolated per key. -/
def loadAllStep (readOk : String → Bool) (s : CacheState) : CacheState :=
  (availableModels s.disk).foldl (fun st p => (loadStep p (readOk p) st).1) s

/-- delete_model, forecasting.py lines 333-356: removes the three persisted
entries and purges the three in-memory maps; removeOk false models an
exception raised after the first file removal, which skips the in-memory
purge and reports failure. -/
def deleteStep (k : String) (removeOk : Bool) (s : CacheState) : CacheState × Bool :=
  if removeOk then
    ({ models := s.models.filter (fun x => x != k),
        model_performance := s.model_performance.filter (fun x => x != k),
        metadata := s.metadata.filter (fun x => x != k),
        disk := s.disk.filter
          (fun f => !(f == modelFile k || f == perfFile k || f == metaFile k)) }, true)
  else
    ({ s with disk := s.disk.filter (fun f => f != modelFile k) }, false)

/-- One cache operation with its fault-injection outcome. -/
inductive Op where
  | train (k : String) (fitOk : Bool) (writesOk : ℕ)
  | save (k : String) (writesOk : ℕ)
  | load (k : String) (readOk : Bool)
  | loadAll (readOk : String → Bool)
  | delete (k : String) (removeOk : Bool)

/-- Effect of one operation on the cache state. -/
def step (op : Op) (s : CacheState) : CacheState :=
  match op with
  | Op.train k fitOk writesOk => (trainStep k fitOk writesOk s).1
  | Op.save k writesOk => (saveStep k writesOk s).1
  | Op.load k readOk => (loadStep k readOk s).1
  | Op.loadAll readOk => loadAllStep readOk s
  | Op.delete k removeOk => (deleteStep k removeOk s).1

/-- Run a sequence of cache operations. -/
def run (ops : List Op) (s : CacheState) : CacheState :=
  ops.foldl (fun st op => step op st) s

/-- The cache exposure invariant of the claim: any key whose model is held
in memory also has in-memory performance metrics and metadata. -/
def ModelCoherent (s : CacheState) : Prop :=
  ∀ x : String, x ∈ s.models → x ∈ s.model_performance ∧ x ∈ s.metadata

/-- An operation never leaves a save half done: a train whose fit succeeds,
and a direct save, complete all three writes. -/
def NoFailedSave : Op → Prop
  | Op.train _ fitOk writesOk => fitOk = true → 3 ≤ writesOk
  | Op.save _ writesOk => 3 ≤ writesOk
  | _ => True

theorem roundHalfEven_eq_floor_or_succ (q : ℚ) :
    roundHalfEven q = ⌊q⌋ ∨ roundHalfEven q = ⌊q⌋ + 1 := by
  unfold roundHalfEven
  split_ifs <;> simp

theorem floor_le_roundHalfEven (q : ℚ) : ⌊q⌋ ≤ roundHalfEven q := by
  rcases roundHalfEven_eq_floor_or_succ q with h | h <;> omega

theorem roundHalfEven_le_floor_add_one (q : ℚ) : roundHalfEven q ≤ ⌊q⌋ + 1 := by
  rcases roundHalfEven_eq_floor_or_succ q with h | h <;> omega

theorem roundHalfEven_nonneg {q : ℚ} (h : 0 ≤ q) : 0 ≤ roundHalfEven q :=
  le_trans (Int.floor_nonneg.mpr h) (floor_le_roundHalfEven q)

theorem roundHalfEven_le_of_le_int {q : ℚ} {n : ℤ} (h : q ≤ (n : ℚ)) :
    roundHalfEven q ≤ n := by
  have hf : ⌊q⌋ ≤ n := by
    have := Int.floor_le_floor h
    simpa using this
  rcases lt_or_eq_of_le hf with hlt | heq
  · have := roundHalfEven_le_floor_add_one q
    omega
  · have hq : (n : ℚ) ≤ q := by
      calc (n : ℚ) = (⌊q⌋ : ℚ) := by exact_mod_cast heq.symm
        _ ≤ q := Int.floor_le q
    have hqn : q = (n : ℚ) := le_antisymm h hq
    subst hqn
    unfold roundHalfEven
    simp only [Int.floor_intCast]
    have : (n : ℚ) < (n : ℚ) + 1/2 := by norm_num
    simp [this]

theorem roundHalfEven_nonpos {q : ℚ} (h : q ≤ 1/2) : roundHalfEven q ≤ 0 := by
  have hf : ⌊q⌋ ≤ 0 := by
    have h0 : ⌊(1/2 : ℚ)⌋ = 0 := by norm_num
    have := Int.floor_le_floor h
    omega
  rcases lt_or_eq_of_le hf with hlt | heq
  · have := roundHalfEven_le_floor_add_one q
    omega
  · unfold roundHalfEven
    rw [heq]
    split_ifs with ha hb hc
    · exact le_refl 0
    · exfalso
      norm_num at hb
      linarith
    · exact le_refl 0
    · norm_num at hc

theorem half_lt_of_roundHalfEven_pos {q : ℚ} (h : 0 < roundHalfEven q) : 1/2 < q := by
  by_contra hq
  push_neg at hq
  have := roundHalfEven_nonpos hq
  omega

theorem pyRound_zero (n : ℕ) : pyRound 0 n = 0 := by
  have h : roundHalfEven 0 = 0 := by
    unfold roundHalfEven
    norm_num
  simp [pyRound, h]

theorem pyRound_whole (q : ℚ) : pyRound q 0 = (roundHalfEven q : ℚ) := by
  simp [pyRound]

theorem pyRound_nonneg {q : ℚ} {n : ℕ} (h : 0 ≤ q) : 0 ≤ pyRound q n := by
  unfold pyRound
  apply div_nonneg
  · exact_mod_cast roundHalfEven_nonneg (by positivity)
  · positivity

theorem pyRound_pos {q : ℚ} {n : ℕ} (h : 1 ≤ q * 10 ^ n) : 0 < pyRound q n := by
  unfold pyRound
  apply div_pos
  · have h1 : (1 : ℤ) ≤ ⌊q * 10 ^ n⌋ := by
      have := Int.le_floor.mpr (by exact_mod_cast h : ((1 : ℤ) : ℚ) ≤ q * 10 ^ n)
      omega
    have := floor_le_roundHalfEven (q * 10 ^ n)
    exact_mod_cast (by omega : (0 : ℤ) < roundHalfEven (q * 10 ^ n))
  · positivity

theorem mem_insertByDate {a r : ForecastRow} {l : List ForecastRow} :
    a ∈ insertByDate r l ↔ a = r ∨ a ∈ l := by
  induction l with
  | nil => simp [insertByDate]
  | cons x xs ih =>
    unfold insertByDate
    split_ifs <;> simp [ih] <;> tauto

theorem mem_sortByDate {a : ForecastRow} {l : List ForecastRow} :
    a ∈ sortByDate l ↔ a ∈ l := by
  induction l with
  | nil => simp [sortByDate]
  | cons x xs ih =>
    have hs : sortByDate (x :: xs) = insertByDate x (sortByDate xs) := rfl
    rw [hs, mem_insertByDate, ih]
    simp

theorem plan_row_origin {forecasts : List ForecastRow} {product : String}
    {safety_stock : ℚ} {custom_capacity : Option ℚ} {plan : List PlanRow} {r : PlanRow}
    (hplan : calculate_optimal_production forecasts product safety_stock custom_capacity
      = some plan)
    (hr : r ∈ plan) :
    ∃ fr ∈ forecasts, fr.product = product ∧
      r = mkPlanRow product safety_stock (effectiveCapacity custom_capacity product)
            fr.date fr.predicted_demand := by
  simp only [calculate_optimal_production] at hplan
  split_ifs at hplan with h1 h2
  rw [Option.some_inj] at hplan
  subst hplan
  rcases List.mem_map.mp hr with ⟨fr, hfr, hrw⟩
  rw [mem_sortByDate] at hfr
  rcases List.mem_filter.mp hfr with ⟨hmem, hbeq⟩
  exact ⟨fr, hmem, by simpa using hbeq, hrw.symm⟩

/-- C1: each row of the result of calculate_optimal_production satisfies
the documented per-row formulas: adjusted demand is demand times one plus
the safety fraction, production is the capacity-clamped adjusted demand,
utilization, cost, revenue and the guarded profit margin are all computed
from the unrounded production quantity, and rounding (production to whole
units, money to 2 decimals, percentages to 1 decimal) is applied only to
the final fields. -/
theorem c1_row_formulas (forecasts : List ForecastRow) (product : String)
    (safety_stock : ℚ) (custom_capacity : Option ℚ) (plan : List PlanRow) (r : PlanRow)
    (hplan : calculate_optimal_production forecasts product safety_stock custom_capacity
      = some plan)
    (hr : r ∈ plan) :
    r.optimal_production =
      pyRound (min (r.forecasted_demand * (1 + safety_stock))
        (effectiveCapacity custom_capacity product)) 0 ∧
    r.capacity_utilization =
      pyRound (min (r.forecasted_demand * (1 + safety_stock))
          (effectiveCapacity custom_capacity product) /
        effectiveCapacity custom_capacity product * 100) 1 ∧
    r.production_cost =
      pyRound (min (r.forecasted_demand * (1 + safety_stock))
          (effectiveCapacity custom_capacity product) *
        (production_costs product).getD 0) 2 ∧
    r.potential_revenue =
      pyRound (min (r.forecasted_demand * (1 + safety_stock))
          (effectiveCapacity custom_capacity product) * estimate_price product) 2 ∧
    r.profit_margin =
      (if 0 < min (r.forecasted_demand * (1 + safety_stock))
            (effectiveCapacity custom_capacity product) * estimate_price product then
        pyRound ((min (r.forecasted_demand * (1 + safety_stock))
              (effectiveCapacity custom_capacity product) * estimate_price product -
            min (r.forecasted_demand * (1 + safety_stock))
              (effectiveCapacity custom_capacity product) *
              (production_costs product).getD 0) /
          (min (r.forecasted_demand * (1 + safety_stock))
            (effectiveCapacity custom_capacity product) * estimate_price product) * 100) 1
      else 0) := by
  obtain ⟨fr, hmem, hprod, hrw⟩ := plan_row_origin hplan hr
  subst hrw
  simp [mkPlanRow]

/-- Witness for C1 at a concrete one-row Milk series. -/
theorem c1_row_formulas_witness :
    (⟨0, 100, 110, 11/2, 1650, 2750, 40⟩ : PlanRow).optimal_production =
      pyRound (min ((⟨0, 100, 110, 11/2, 1650, 2750, 40⟩ : PlanRow).forecasted_demand
        * (1 + 1/10)) (effectiveCapacity none "Milk")) 0 := by
  have h := c1_row_formulas [⟨"Milk", 0, 100⟩] "Milk" (1/10) none
      [⟨0, 100, 110, 11/2, 1650, 2750, 40⟩] ⟨0, 100, 110, 11/2, 1650, 2750, 40⟩
      (by norm_num [calculate_optimal_production, sortByDate, insertByDate, mkPlanRow,
        effectiveCapacity, default_capacities, production_costs, price_estimates,
        estimate_price, pyRound, roundHalfEven])
      (by simp)
  exact h.1

/-- C4 counterexample: with non-negative demand 10 and the caller-supplied
capacity 3/2, the reported optimal production rounds up to 2, which
exceeds the capacity, so the claimed bound fails for a fractional
capacity. -/
theorem c4_counterexample :
    0 ≤ (⟨"Milk", 0, 10⟩ : ForecastRow).predicted_demand ∧
    calculate_optimal_production [⟨"Milk", 0, 10⟩] "Milk" (1/10) (some (3/2)) =
      some [⟨0, 10, 2, 100, 45/2, 75/2, 40⟩] ∧
    ¬ ((⟨0, 10, 2, 100, 45/2, 75/2, 40⟩ : PlanRow).optimal_production ≤
      effectiveCapacity (some (3/2)) "Milk") := by
  refine ⟨by norm_num, ?_, ?_⟩
  · norm_num [calculate_optimal_production, sortByDate, insertByDate, mkPlanRow,
      effectiveCapacity, default_capacities, production_costs, price_estimates,
      estimate_price, pyRound, roundHalfEven]
  · norm_num [effectiveCapacity, default_capacities]

/-- C4 amended: when every demand is non-negative, the safety fraction is
non-negative, and the capacity in force is a non-negative whole number,
every output row satisfies 0 ≤ optimal_production ≤ capacity.  The original
claim fails for fractional capacities because production is rounded to
whole units after clamping. -/
theorem c4_production_bounds (forecasts : List ForecastRow) (product : String)
    (safety_stock : ℚ) (custom_capacity : Option ℚ) (plan : List PlanRow) (r : PlanRow)
    (n : ℕ)
    (hd : ∀ fr ∈ forecasts, 0 ≤ fr.predicted_demand)
    (hs : 0 ≤ safety_stock)
    (hcap : effectiveCapacity custom_capacity product = (n : ℚ))
    (hplan : calculate_optimal_production forecasts product safety_stock custom_capacity
      = some plan)
    (hr : r ∈ plan) :
    0 ≤ r.optimal_production ∧
    r.optimal_production ≤ effectiveCapacity custom_capacity product := by
  obtain ⟨fr, hmem, hprod, hrw⟩ := plan_row_origin hplan hr
  subst hrw
  have hd0 : 0 ≤ fr.predicted_demand := hd fr hmem
  simp only [mkPlanRow]
  rw [hcap, pyRound_whole]
  have hq0 : 0 ≤ min (fr.predicted_demand * (1 + safety_stock)) ((n : ℚ)) :=
    le_min (mul_nonneg hd0 (by linarith)) (by positivity)
  have hqn : min (fr.predicted_demand * (1 + safety_stock)) ((n : ℚ)) ≤ ((n : ℤ) : ℚ) := by
    push_cast
    exact min_le_right _ _
  constructor
  · exact_mod_cast roundHalfEven_nonneg hq0
  · exact_mod_cast roundHalfEven_le_of_le_int hqn

/-- Witness for C4 at a concrete one-row Milk series with capacity 2000. -/
theorem c4_production_bounds_witness :
    0 ≤ (⟨0, 100, 110, 11/2, 1650, 2750, 40⟩ : PlanRow).optimal_production ∧
    (⟨0, 100, 110, 11/2, 1650, 2750, 40⟩ : PlanRow).optimal_production ≤
      effectiveCapacity none "Milk" := by
  exact c4_production_bounds [⟨"Milk", 0, 100⟩] "Milk" (1/10) none
    [⟨0, 100, 110, 11/2, 1650, 2750, 40⟩] ⟨0, 100, 110, 11/2, 1650, 2750, 40⟩ 2000
    (by intro fr hfr; simp at hfr; subst hfr; norm_num)
    (by norm_num)
    (by norm_num [effectiveCapacity, default_capacities])
    (by norm_num [calculate_optimal_production, sortByDate, insertByDate, mkPlanRow,
      effectiveCapacity, default_capacities, production_costs, price_estimates,
      estimate_price, pyRound, roundHalfEven])
    (by simp)

/-- C8 counterexample: a caller-supplied capacity override of 0 is not the
capacity used; the code falls back to the configured default 2000 because
the Python or-expression treats a zero override as absent. -/
theorem c8_counterexample :
    effectiveCapacity (some 0) "Milk" = 2000 ∧ (2000 : ℚ) ≠ 0 := by
  norm_num [effectiveCapacity, default_capacities]

/-- C8 amended: the capacity used in every row is the caller-supplied
override whenever a non-zero override is given; a zero or absent override
falls back to the product's configured default daily capacity, and to the
constant 1000 when the product is not in the configuration table.  Every
output row's utilization is computed against that effective capacity. -/
theorem c8_capacity_choice (forecasts : List ForecastRow) (product : String)
    (safety_stock : ℚ) (custom_capacity : Option ℚ) (plan : List PlanRow) (r : PlanRow)
    (hplan : calculate_optimal_production forecasts product safety_stock custom_capacity
      = some plan)
    (hr : r ∈ plan) :
    r.capacity_utilization =
      pyRound (min (r.forecasted_demand * (1 + safety_stock))
          (effectiveCapacity custom_capacity product) /
        effectiveCapacity custom_capacity product * 100) 1 ∧
    (∀ c : ℚ, custom_capacity = some c → c ≠ 0 →
      effectiveCapacity custom_capacity product = c) ∧
    (custom_capacity = none →
      effectiveCapacity custom_capacity product = (default_capacities product).getD 1000) ∧
    (custom_capacity = some 0 →
      effectiveCapacity custom_capacity product = (default_capacities product).getD 1000) := by
  refine ⟨?_, ?_, ?_, ?_⟩
  · obtain ⟨fr, hmem, hprod, hrw⟩ := plan_row_origin hplan hr
    subst hrw
    simp [mkPlanRow]
  · intro c hc hc0
    subst hc
    simp [effectiveCapacity, hc0]
  · intro hc
    subst hc
    simp [effectiveCapacity]
  · intro hc
    subst hc
    simp [effectiveCapacity]

/-- Witness for C8 at a concrete one-row Milk series with override 50. -/
theorem c8_capacity_choice_witness :
    (⟨0, 100, 50, 100, 750, 1250, 40⟩ : PlanRow).capacity_utilization =
      pyRound (min ((⟨0, 100, 50, 100, 750, 1250, 40⟩ : PlanRow).forecasted_demand
          * (1 + 1/10)) (effectiveCapacity (some 50) "Milk") /
        effectiveCapacity (some 50) "Milk" * 100) 1 ∧
    effectiveCapacity (some 50) "Milk" = 50 := by
  have h := c8_capacity_choice [⟨"Milk", 0, 100⟩] "Milk" (1/10) (some 50)
      [⟨0, 100, 50, 100, 750, 1250, 40⟩] ⟨0, 100, 50, 100, 750, 1250, 40⟩
      (by norm_num [calculate_optimal_production, sortByDate, insertByDate, mkPlanRow,
        effectiveCapacity, default_capacities, production_costs, price_estimates,
        estimate_price, pyRound, roundHalfEven])
      (by simp)
  exact ⟨h.1, h.2.1 50 rfl (by norm_num)⟩

/-- C9: a row whose unrounded potential revenue is 0 reports profit margin
exactly 0 and rounded revenue 0 with no division; and the overall summary
margin is the guarded formula over the unrounded totals, exactly 0 when
the total revenue is 0, never a division error. -/
theorem c9_zero_revenue_guards :
    (∀ (forecasts : List ForecastRow) (product : String) (safety_stock : ℚ)
      (custom_capacity : Option ℚ) (plan : List PlanRow) (r : PlanRow),
      calculate_optimal_production forecasts product safety_stock custom_capacity
        = some plan →
      r ∈ plan →
      min (r.forecasted_demand * (1 + safety_stock))
          (effectiveCapacity custom_capacity product) * estimate_price product = 0 →
      r.profit_margin = 0 ∧ r.potential_revenue = 0) ∧
    (∀ (forecasts : List ForecastRow) (products : List String),
      (0 < (summaryTotals forecasts products).2 →
        (overallMetrics forecasts products).2.2 =
          pyRound (((summaryTotals forecasts products).2 -
              (summaryTotals forecasts products).1) /
            (summaryTotals forecasts products).2 * 100) 1) ∧
      ((summaryTotals forecasts products).2 = 0 →
        (overallMetrics forecasts products).2.2 = 0)) := by
  constructor
  · intro forecasts product safety_stock custom_capacity plan r hplan hr hrev
    obtain ⟨fr, hmem, hprod, hrw⟩ := plan_row_origin hplan hr
    subst hrw
    simp only [mkPlanRow] at hrev ⊢
    rw [hrev]
    simp [pyRound_zero]
  · intro forecasts products
    constructor
    · intro hpos
      simp only [overallMetrics]
      rw [if_pos hpos]
    · intro hzero
      simp only [overallMetrics]
      rw [hzero]
      simp

/-- Witness for C9: a zero-demand Milk row has margin and revenue 0, and
the empty summary has overall margin 0. -/
theorem c9_zero_revenue_guards_witness :
    ((⟨0, 0, 0, 0, 0, 0, 0⟩ : PlanRow).profit_margin = 0 ∧
      (⟨0, 0, 0, 0, 0, 0, 0⟩ : PlanRow).potential_revenue = 0) ∧
    (overallMetrics [] []).2.2 = 0 := by
  constructor
  · exact c9_zero_revenue_guards.1 [⟨"Milk", 0, 0⟩] "Milk" (1/10) none
      [⟨0, 0, 0, 0, 0, 0, 0⟩] ⟨0, 0, 0, 0, 0, 0, 0⟩
      (by norm_num [calculate_optimal_production, sortByDate, insertByDate, mkPlanRow,
        effectiveCapacity, default_capacities, production_costs, price_estimates,
        estimate_price, pyRound, roundHalfEven])
      (by simp)
      (by norm_num [effectiveCapacity, default_capacities, estimate_price, price_estimates])
  · exact (c9_zero_revenue_guards.2 [] []).2 (by simp [summaryTotals])

/-- C10: for a product key absent from the cost and price tables, any
output row whose reported production is positive has production cost 0,
positive potential revenue (the price falls back to 100, not 0) and profit
margin exactly 100. -/
theorem c10_unknown_product_margin (forecasts : List ForecastRow) (product : String)
    (safety_stock : ℚ) (custom_capacity : Option ℚ) (plan : List PlanRow) (r : PlanRow)
    (hcost : production_costs product = none)
    (hprice : price_estimates product = none)
    (hplan : calculate_optimal_production forecasts product safety_stock custom_capacity
      = some plan)
    (hr : r ∈ plan)
    (hpos : 0 < r.optimal_production) :
    r.production_cost = 0 ∧ 0 < r.potential_revenue ∧ r.profit_margin = 100 := by
  obtain ⟨fr, hmem, hprod, hrw⟩ := plan_row_origin hplan hr
  subst hrw
  simp only [mkPlanRow, estimate_price, hcost, hprice, Option.getD_none] at hpos ⊢
  rw [pyRound_whole] at hpos
  have hq : (1:ℚ)/2 < min (fr.predicted_demand * (1 + safety_stock))
      (effectiveCapacity custom_capacity product) := by
    apply half_lt_of_roundHalfEven_pos
    exact_mod_cast hpos
  set q := min (fr.predicted_demand * (1 + safety_stock))
      (effectiveCapacity custom_capacity product) with hqdef
  have hq0 : (0:ℚ) < q := by linarith
  have hrevpos : (0:ℚ) < q * 100 := by linarith
  refine ⟨?_, ?_, ?_⟩
  · simp [pyRound_zero]
  · apply pyRound_pos
    nlinarith
  · rw [if_pos hrevpos]
    have hfrac : (q * 100 - q * 0) / (q * 100) * 100 = 100 := by
      field_simp
    rw [hfrac]
    norm_num [pyRound, roundHalfEven]

/-- Witness for C10 at a concrete one-row series for the unknown product
Paneer. -/
theorem c10_unknown_product_margin_witness :
    (⟨0, 10, 11, 11/10, 0, 1100, 100⟩ : PlanRow).production_cost = 0 ∧
    0 < (⟨0, 10, 11, 11/10, 0, 1100, 100⟩ : PlanRow).potential_revenue ∧
    (⟨0, 10, 11, 11/10, 0, 1100, 100⟩ : PlanRow).profit_margin = 100 := by
  exact c10_unknown_product_margin [⟨"Paneer", 0, 10⟩] "Paneer" (1/10) none
    [⟨0, 10, 11, 11/10, 0, 1100, 100⟩] ⟨0, 10, 11, 11/10, 0, 1100, 100⟩
    (by rfl)
    (by rfl)
    (by norm_num [calculate_optimal_production, sortByDate, insertByDate, mkPlanRow,
      effectiveCapacity, estimate_price, pyRound, roundHalfEven,
      show production_costs "Paneer" = none from rfl,
      show price_estimates "Paneer" = none from rfl,
      show default_capacities "Paneer" = none from rfl])
    (by simp)
    (by norm_num)

/-- C2 counterexample: a 70-point training series has at least 60 points,
yet the evaluation helper records unavailable metrics with the
insufficient-data note, because the source guard skips evaluation whenever
the training prefix left after removing the 30-point holdout has fewer
than 60 points, that is whenever the series has fewer than 90 points. -/
theorem c2_counterexample :
    60 ≤ (List.replicate 70 (1 : ℚ)).length ∧
    evaluateModel (fun _ n => List.replicate n 1) (List.replicate 70 1) =
      EvalResult.unavailable "Insufficient data for validation" := by
  constructor
  · simp
  · norm_num [evaluateModel]

/-- C2 amended: evaluation is skipped, with all three metrics recorded as
unavailable plus the explanatory note and no failure, exactly when the
series has fewer than 90 total points (a training prefix under 60 after
holding out the most recent 30); with at least 90 points a fresh model is
fitted on the series minus its last 30 points and the error metrics are
computed between that held-out 30-point suffix and the predictions, both
floored at 0.1. -/
theorem c2_evaluation_threshold (predictTail : List ℚ → ℕ → List ℚ) (data : List ℚ) :
    evaluateModel predictTail data =
      if data.length < 90 then
        EvalResult.unavailable "Insufficient data for validation"
      else
        EvalResult.available
          ((((((data.drop (data.length - 30)).map (fun y => max y (1/10))).zip
              ((predictTail (data.take (data.length - 30)) 30).map
                (fun y => max y (1/10)))).map (fun p => |p.1 - p.2|)).sum) / 30)
          ((((((data.drop (data.length - 30)).map (fun y => max y (1/10))).zip
              ((predictTail (data.take (data.length - 30)) 30).map
                (fun y => max y (1/10)))).map (fun p => (p.1 - p.2) ^ 2)).sum) / 30)
          ((((((data.drop (data.length - 30)).map (fun y => max y (1/10))).zip
              ((predictTail (data.take (data.length - 30)) 30).map
                (fun y => max y (1/10)))).map (fun p => |p.1 - p.2| / p.1)).sum) / 30 * 100)
          "Validation on last 30 days" := by
  unfold evaluateModel
  have hiff : ((data.length : ℤ) - 30 < 60) ↔ data.length < 90 := by omega
  by_cases h : data.length < 90
  · rw [if_pos (hiff.mpr h), if_pos h]
  · rw [if_neg (fun hc => h (hiff.mp hc)), if_neg h]
    have hlen : (data.drop (data.length - 30)).length = 30 := by
      rw [List.length_drop]
      omega
    simp only [hlen]
    norm_num

/-- C5: on a two-product input the filtered frame keeps its original
pandas index labels (2 and 3 for product B), and the future-demand helper
uses those labels as positions into the two-row filtered frame; the
lookahead window for product B therefore starts past the end of the frame
and sums to 0, making both optimal stock levels 0, although the lookahead
prescribed by the claim, starting at the current row, sums to 30, giving
optimal stock 30 for the first row. -/
theorem c5_lookahead_misaligned :
    (calculate_inventory_optimization
        [⟨"A", 0, 5⟩, ⟨"A", 1, 5⟩, ⟨"B", 2, 10⟩, ⟨"B", 3, 20⟩] "B" 0).map
      (fun l => l.map (fun r => r.optimal_stock_level)) = some [0, 0] ∧
    calculate_future_demand [⟨"B", 2, 10⟩, ⟨"B", 3, 20⟩] 0 ((shelf_life "B").getD 30)
      = 30 ∧
    pyRound (min
        (calculate_future_demand [⟨"B", 2, 10⟩, ⟨"B", 3, 20⟩] 0 ((shelf_life "B").getD 30))
        ((⟨"B", 2, 10⟩ : ForecastRow).predicted_demand * ((shelf_life "B").getD 30)))
      0 = 30 := by
  refine ⟨?_, ?_, ?_⟩
  · norm_num [calculate_inventory_optimization, invRows, calculate_future_demand,
      get_stock_status, pyRound, roundHalfEven, List.enum, List.enumFrom,
      List.filter_cons, List.filter_nil,
      (by decide : ("A" : String) ≠ "B"),
      show shelf_life "B" = none from rfl, show storage_costs "B" = none from rfl]
  · norm_num [calculate_future_demand, show shelf_life "B" = none from rfl]
  · norm_num [calculate_future_demand, pyRound, roundHalfEven,
      show shelf_life "B" = none from rfl]

theorem saveStep_full {k : String} {w : ℕ} (s : CacheState) (hw : 3 ≤ w) :
    saveStep k w s =
      ({ s with
          disk := metaFile k :: perfFile k :: modelFile k :: s.disk,
          metadata := k :: s.metadata }, true) := by
  unfold saveStep
  rw [if_neg (by omega), if_neg (by omega), if_neg (by omega)]

theorem coherent_loadStep (k : String) (r : Bool) {s : CacheState}
    (h : ModelCoherent s) : ModelCoherent (loadStep k r s).1 := by
  unfold loadStep
  split_ifs with h1 h2
  · intro x hx
    simp only [List.mem_cons] at hx ⊢
    rcases hx with rfl | hx
    · exact ⟨Or.inl rfl, Or.inl rfl⟩
    · exact ⟨Or.inr (h x hx).1, Or.inr (h x hx).2⟩
  · exact h
  · exact h

theorem coherent_foldl_load (f : String → Bool) :
    ∀ (ps : List String) (s : CacheState), ModelCoherent s →
      ModelCoherent (ps.foldl (fun st p => (loadStep p (f p) st).1) s)
  | [], _, h => h
  | p :: ps, s, h => coherent_foldl_load f ps _ (coherent_loadStep p (f p) h)

theorem coherent_step {op : Op} {s : CacheState} (hop : NoFailedSave op)
    (h : ModelCoherent s) : ModelCoherent (step op s) := by
  cases op with
  | train k fitOk w =>
    cases fitOk with
    | false => simpa [step, trainStep] using h
    | true =>
      have hw : 3 ≤ w := hop rfl
      simp only [step, trainStep, if_pos]
      rw [saveStep_full _ hw]
      intro x hx
      simp only [List.mem_cons] at hx ⊢
      rcases hx with rfl | hx
      · exact ⟨Or.inl rfl, Or.inl rfl⟩
      · exact ⟨Or.inr (h x hx).1, Or.inr (h x hx).2⟩
  | save k w =>
    have hw : 3 ≤ w := hop
    simp only [step]
    rw [saveStep_full _ hw]
    intro x hx
    exact ⟨(h x hx).1, List.mem_cons_of_mem _ (h x hx).2⟩
  | load k r => exact coherent_loadStep k r h
  | loadAll f => exact coherent_foldl_load f (availableModels s.disk) s h
  | delete k rm =>
    cases rm with
    | false => simpa [step, deleteStep] using h
    | true =>
      simp only [step, deleteStep, if_pos]
      intro x hx
      rw [List.mem_filter] at hx
      exact ⟨List.mem_filter.mpr ⟨(h x hx.1).1, hx.2⟩,
        List.mem_filter.mpr ⟨(h x hx.1).2, hx.2⟩⟩

/-- C3 counterexample: from the empty state, training Milk with a save
that fails after writing only the model entry leaves an in-memory model
for Milk with no metadata entry, so the cache exposes a model without
matching metadata. -/
theorem c3_counterexample :
    "Milk" ∈ (run [Op.train "Milk" true 1] initState).models ∧
    "Milk" ∉ (run [Op.train "Milk" true 1] initState).metadata := by
  constructor <;> decide

/-- C3 amended: provided every save attempt in the sequence completes all
three writes, after any sequence of train, save, load, load_all and delete
operations a key with an in-memory model also has in-memory metrics and
metadata; a save that fails partway can leave a freshly trained model
exposed without metadata. -/
theorem c3_invariant (ops : List Op) (s : CacheState)
    (hops : ∀ op ∈ ops, NoFailedSave op) (hs : ModelCoherent s) :
    ModelCoherent (run ops s) := by
  induction ops generalizing s with
  | nil => exact hs
  | cons op rest ih =>
    have hrun : run (op :: rest) s = run rest (step op s) := rfl
    rw [hrun]
    exact ih (step op s) (fun o ho => hops o (List.mem_cons_of_mem _ ho))
      (coherent_step (hops op (List.mem_cons_self _ _)) hs)

/-- Witness for C3 on a concrete sequence with fully successful saves. -/
theorem c3_invariant_witness :
    ModelCoherent (run [Op.train "Milk" true 3, Op.delete "Milk" true] initState) := by
  apply c3_invariant
  · intro op hop
    simp only [List.mem_cons, List.mem_singleton] at hop
    rcases hop with rfl | rfl | h
    · intro _
      omega
    · trivial
    · exact absurd h (List.not_mem_nil op)
  · intro x hx
    exact absurd hx (List.not_mem_nil x)

theorem replaceSubAux_skip (pat rep : List Char) :
    ∀ (l : List Char) (n : ℕ), l.length ≤ n → replaceSubAux pat rep l n = [] := by
  intro l
  induction l with
  | nil => intro n _; cases n <;> rfl
  | cons c cs ih =>
    intro n hn
    cases n with
    | zero => simp at hn
    | succ m =>
      have : cs.length ≤ m := by simpa using hn
      simpa [replaceSubAux] using ih m this

theorem replaceSub_append_self (pat rep : List Char) (hpat : pat ≠ []) :
    ∀ (e : List Char),
      (∀ i, i < e.length → ¬ pat.isPrefixOf ((e ++ pat).drop i) = true) →
      replaceSub pat rep (e ++ pat) = e ++ rep := by
  intro e
  induction e with
  | nil =>
    intro _
    obtain ⟨c, cs, rfl⟩ : ∃ c cs, pat = c :: cs := by
      rcases pat with _ | ⟨c, cs⟩
      · exact absurd rfl hpat
      · exact ⟨c, cs, rfl⟩
    show replaceSubAux (c :: cs) rep (c :: cs) 0 = rep
    have hpre : (c :: cs).isPrefixOf (c :: cs) = true :=
      Iff.mpr List.isPrefixOf_iff_prefix (List.prefix_refl _)
    simp only [replaceSubAux]
    split_ifs with hcond
    · rw [replaceSubAux_skip (c :: cs) rep cs ((c :: cs).length - 1) (by simp)]
      simp
    · exact absurd ⟨hpat, hpre⟩ hcond
  | cons c e2 ih =>
    intro hmid
    have h0 : ¬ pat.isPrefixOf ((c :: e2) ++ pat) = true := by
      have := hmid 0 (by simp)
      simpa using this
    show replaceSubAux pat rep (c :: (e2 ++ pat)) 0 = c :: (e2 ++ rep)
    rw [replaceSubAux]
    rw [if_neg (fun hc => h0 hc.2)]
    have ih2 := ih (fun i hi => by
      have := hmid (i + 1) (by simpa using Nat.succ_lt_succ hi)
      simpa [List.drop] using this)
    exact congrArg (c :: ·) ih2

theorem dot_not_mem_encodeChars {k : String} (h : '.' ∉ k.toList) :
    '.' ∉ encodeChars k := by
  intro hc
  rcases List.mem_map.mp hc with ⟨c, hcmem, hceq⟩
  by_cases hsp : c = ' '
  · simp [hsp] at hceq
  · rw [if_neg hsp] at hceq
    exact h (hceq ▸ hcmem)

theorem no_middle_modelSuffix {k : String} (h2 : '.' ∉ k.toList) :
    ∀ i, i < (encodeChars k).length →
      ¬ modelSuffix.isPrefixOf ((encodeChars k ++ modelSuffix).drop i) = true := by
  intro i hi hpre
  rcases Iff.mp List.isPrefixOf_iff_prefix hpre with ⟨t, ht⟩
  have hdot : (encodeChars k ++ modelSuffix)[i + 6]? = some '.' := by
    have h6 : ((encodeChars k ++ modelSuffix).drop i)[6]? = some '.' := by
      rw [← ht]
      rw [List.getElem?_append_left (by decide : 6 < modelSuffix.length)]
      decide
    rw [List.getElem?_drop] at h6
    exact h6
  by_cases hcase : i + 6 < (encodeChars k).length
  · rw [List.getElem?_append_left hcase] at hdot
    exact dot_not_mem_encodeChars h2 (List.getElem?_mem hdot)
  · push_neg at hcase
    rw [List.getElem?_append_right hcase] at hdot
    have hj : i + 6 - (encodeChars k).length < 6 := by omega
    have hall : ∀ j, j < 6 → ¬ modelSuffix[j]? = some '.' := by decide
    exact hall _ hj hdot

theorem decode_encode {k : String} (h1 : '_' ∉ k.toList) :
    decodeChars (encodeChars k) = k.toList := by
  unfold decodeChars encodeChars
  rw [List.map_map]
  have hcong : ∀ c ∈ k.toList,
      ((fun c => if c = '_' then ' ' else c) ∘ fun c => if c = ' ' then '_' else c) c
        = id c := by
    intro c hc
    by_cases hsp : c = ' '
    · simp [hsp]
    · have hu : c ≠ '_' := fun hc2 => h1 (hc2 ▸ hc)
      simp [hsp, hu]
  rw [List.map_congr_left hcong, List.map_id]

theorem string_mk_toList (k : String) : String.mk k.toList = k := rfl

/-- C6 counterexample: saving the key A_B succeeds, yet the decoded list
of available models contains A B and not A_B, because replacing
underscores by spaces does not invert the space-to-underscore transform on
keys that already contain underscores. -/
theorem c6_counterexample :
    (saveStep "A_B" 3 initState).2 = true ∧
    "A_B" ∉ availableModels (saveStep "A_B" 3 initState).1.disk ∧
    availableModels (saveStep "A_B" 3 initState).1.disk = ["A B"] := by
  refine ⟨rfl, ?_, ?_⟩ <;> decide

/-- C6 amended: for every product key containing neither an underscore nor
a dot, a successful save makes the key a member of the decoded available
model list; for keys with underscores the decoding is not the inverse of
the encoding. -/
theorem c6_save_then_listed (k : String) (s : CacheState) (w : ℕ) (hw : 3 ≤ w)
    (h1 : '_' ∉ k.toList) (h2 : '.' ∉ k.toList) :
    (saveStep k w s).2 = true ∧
    k ∈ availableModels (saveStep k w s).1.disk := by
  rw [saveStep_full s hw]
  refine ⟨rfl, ?_⟩
  unfold availableModels
  apply List.mem_map.mpr
  refine ⟨modelFile k, ?_, ?_⟩
  · apply List.mem_filter.mpr
    constructor
    · simp
    · exact List.isSuffixOf_iff_suffix.mpr (List.suffix_append _ _)
  · show String.mk (decodeChars (replaceSub modelSuffix [] (encodeChars k ++ modelSuffix))) = k
    rw [replaceSub_append_self modelSuffix [] (by decide) (encodeChars k)
      (no_middle_modelSuffix h2)]
    rw [List.append_nil, decode_encode h1, string_mk_toList]

/-- Witness for C6 at the key Greek Yogurt. -/
theorem c6_save_then_listed_witness :
    (saveStep "Greek Yogurt" 3 initState).2 = true ∧
    "Greek Yogurt" ∈ availableModels (saveStep "Greek Yogurt" 3 initState).1.disk := by
  exact c6_save_then_listed "Greek Yogurt" initState 3 (by norm_num)
    (by decide) (by decide)

/-- C7: load returns found=false, leaving the state unchanged, whenever
any of the three persisted entries for the key is missing; when all three
are present and readable it returns success and populates the in-memory
model, metrics and metadata maps for the key. -/
theorem c7_load_all_or_nothing (k : String) (readOk : Bool) (s : CacheState) :
    ((modelFile k ∉ s.disk ∨ perfFile k ∉ s.disk ∨ metaFile k ∉ s.disk) →
      loadStep k readOk s = (s, false)) ∧
    ((modelFile k ∈ s.disk ∧ perfFile k ∈ s.disk ∧ metaFile k ∈ s.disk ∧ readOk = true) →
      (loadStep k readOk s).2 = true ∧
      k ∈ (loadStep k readOk s).1.models ∧
      k ∈ (loadStep k readOk s).1.model_performance ∧
      k ∈ (loadStep k readOk s).1.metadata) := by
  constructor
  · intro h
    unfold loadStep
    rw [if_neg]
    intro hc
    rcases h with h | h | h
    · exact h hc.1
    · exact h hc.2.1
    · exact h hc.2.2
  · rintro ⟨ha, hb, hc, hr⟩
    subst hr
    unfold loadStep
    rw [if_pos ⟨ha, hb, hc⟩, if_pos rfl]
    exact ⟨rfl, List.mem_cons_self _ _, List.mem_cons_self _ _, List.mem_cons_self _ _⟩

/-- Witness for C7: loading from the empty store fails with no state
change, and loading after a full save succeeds and exposes the model. -/
theorem c7_load_all_or_nothing_witness :
    loadStep "Milk" true initState = (initState, false) ∧
    "Milk" ∈ (loadStep "Milk" true (saveStep "Milk" 3 initState).1).1.models := by
  constructor
  · exact (c7_load_all_or_nothing "Milk" true initState).1 (Or.inl (by decide))
  · exact ((c7_load_all_or_nothing "Milk" true (saveStep "Milk" 3 initState).1).2
      ⟨by decide, by decide, by decide, rfl⟩).2.1
